import Mathlib

/-!
Verification of the terraform-ui collection pipeline (backend/collect).

The Python sources are shallowly embedded below:
* the batch-with-single-retry engine shared by clone.py, override.py and
  pull.py (`firstPass`, `retryPass`, `stageRun`, and the three stage mains);
* clone.py's URL parser `extract_repo_info`, `GitCliClient` operations and
  `clone_repository` (both as an outcome function and as a git-operation
  trace);
* override.py's `copy_override_files` / `process_repository`;
* pull.py's `run_command`, `terraform_init`, `terraform_state_pull` and
  `process_repository`;
* repos.py's `discover_repositories` credential handling;
* main.py's stage list and per-stage configuration-path routing, together
  with the path construction used by the three stages.

Python strings are embedded as `List Char` where character-level parsing
matters (the URL parser) and as `String` elsewhere.  Python exceptions are
embedded as `Except String`; a function that catches an exception and
returns normally is embedded as a total function.  Filesystem paths are
embedded as lists of path segments (`List String`).
-/

namespace TfCollect

/-! ## Batch-with-single-retry engine

clone.py lines 199-223, override.py lines 166-191 and pull.py lines 229-254
are the same control flow: a first pass over the items routing each into a
success list or into both a failure list and a retry queue, then one retry
pass that moves a now-succeeding item from the failure list into the
success list with `list.remove` (which deletes the first occurrence of an
equal element).  The lists record `key item` (the URL itself in clone.py,
`os.path.basename(repo_dir)` in override.py and pull.py) while the retry
queue records the item itself.  The first and second invocation of the
per-item processing function are modelled by two functions `p1`, `p2`. -/

/-- First pass (clone.py 205-210): route each item into the success list,
or into the failure list and the retry queue.  Returns
(successes, failures, retry queue). -/
def firstPass {α β : Type} (p1 : α → Bool) (key : α → β) :
    List α → List β × List β × List α
  | [] => ([], [], [])
  | a :: rest =>
    let r := firstPass p1 key rest
    if p1 a then (key a :: r.1, r.2.1, r.2.2)
    else (r.1, key a :: r.2.1, a :: r.2.2)

/-- Retry pass (clone.py 213-223): re-process each queued item; on success
append its key to the success list and `remove` its key from the failure
list (Python `list.remove` deletes the first occurrence, embedded as
`List.erase`; it would raise if the element were absent, which the
theorems below show never happens).  The `retry_failed` local of the
source is dead code and is not modelled. -/
def retryPass {α β : Type} [DecidableEq β] (p2 : α → Bool) (key : α → β) :
    List α → List β → List β → List β × List β
  | [], s, f => (s, f)
  | a :: q, s, f =>
    if p2 a then retryPass p2 key q (s ++ [key a]) (f.erase (key a))
    else retryPass p2 key q s f

/-- A full stage run: first pass followed by the retry pass over the queue
(the source guards the retry pass with `if retry_queue:`, which coincides
with running it on the empty queue).  Returns (final successes, final
failures). -/
def stageRun {α β : Type} [DecidableEq β] (p1 p2 : α → Bool) (key : α → β)
    (items : List α) : List β × List β :=
  let fp := firstPass p1 key items
  retryPass p2 key fp.2.2 fp.1 fp.2.1

/-- Result of one stage main: final success list, final failure list, and
process exit status. -/
structure StageReport (β : Type) where
  success : List β
  failure : List β
  exitCode : Nat
deriving DecidableEq

/-- clone.py main, from the point where the repository list exists
(lines 199-234): run the engine over the URLs (`key` is the identity: the
lists record the URLs themselves) and exit 1 iff the final failure list is
non-empty (lines 230-234).  An empty repository list is processed by the
same loop. -/
def cloneMain {α : Type} [DecidableEq α] (p1 p2 : α → Bool)
    (repositories : List α) : StageReport α :=
  let r := stageRun p1 p2 id repositories
  ⟨r.1, r.2, if r.2.isEmpty then 0 else 1⟩

/-- override.py main, from the point where the repository directories have
been listed (lines 159-202): an empty directory list returns early with
exit 0 (lines 159-162); otherwise run the engine (`key` is
`os.path.basename`) and exit 1 iff the final failure list is non-empty. -/
def overrideMain {α β : Type} [DecidableEq β] (p1 p2 : α → Bool)
    (key : α → β) (repoDirs : List α) : StageReport β :=
  match repoDirs with
  | [] => ⟨[], [], 0⟩
  | _ :: _ =>
    let r := stageRun p1 p2 key repoDirs
    ⟨r.1, r.2, if r.2.isEmpty then 0 else 1⟩

/-- pull.py main (lines 199-265): exit 1 before any item when the
prerequisite check fails (lines 200-201); an empty directory list returns
early with exit 0 (lines 222-225); otherwise run the engine (`key` is
`os.path.basename`) and exit 1 iff the final failure list is non-empty. -/
def pullMain {α β : Type} [DecidableEq β] (prereqOk : Bool)
    (p1 p2 : α → Bool) (key : α → β) (repoDirs : List α) : StageReport β :=
  if prereqOk = false then ⟨[], [], 1⟩
  else
    match repoDirs with
    | [] => ⟨[], [], 0⟩
    | _ :: _ =>
      let r := stageRun p1 p2 key repoDirs
      ⟨r.1, r.2, if r.2.isEmpty then 0 else 1⟩

/-! ## clone.py: URL parsing -/

/-- Python `str.split(sep)` for a one-character separator: split on every
occurrence, keeping empty parts; the result is never empty. -/
def pySplit (c : Char) : List Char → List (List Char)
  | [] => [[]]
  | x :: xs =>
    if x = c then [] :: pySplit c xs
    else
      let r := pySplit c xs
      (x :: r.headD []) :: r.tail

/-- The literal prefix checked by `extract_repo_info` (clone.py 121). -/
def gitAt : List Char := "git@".toList

/-- The literal suffix stripped by `extract_repo_info` (clone.py 125). -/
def dotGit : List Char := ".git".toList

/-- clone.py `extract_repo_info` (lines 118-138).  `Except.error` embeds an
uncaught Python exception: `git_url.split(':')[1]` raises `IndexError`
when the URL contains no colon.  `Except.ok none` embeds the
`return None, None` parse-failure result; `Except.ok (some (p, r))` the
successful `return project, repo`. -/
def extract_repo_info (url : List Char) :
    Except String (Option (List Char × List Char)) :=
  if gitAt.isPrefixOf url then
    match pySplit ':' url with
    | [] => Except.error "IndexError"
    | [_] => Except.error "IndexError"
    | _ :: path0 :: _ =>
      let path_part := if dotGit.isSuffixOf path0
        then path0.take (path0.length - 4) else path0
      match pySplit '/' path_part with
      | seg0 :: seg1 :: _ => Except.ok (some (seg0, seg1))
      | _ => Except.ok none
  else Except.ok none

/-! ## clone.py: git operations and per-item processing

`GitCliClient.clone_repo`, `update_repo` and `set_sparse_checkout`
(clone.py 55-95) each wrap their git invocations in `try/except` blocks
that print the error and return normally, so they never raise and their
result carries no success information.  They are embedded twice: as the
list of git operations they attempt (`..._ops`), and as the error message
they would swallow (`..._log`). -/

/-- The git operations the clone stage can attempt. -/
inductive GitOp where
  | makedirs : GitOp
  | cloneFrom (noCheckout : Bool) (depth : Nat) (filterSpec : String) : GitOp
  | fetchShallow (depth : Nat) (filterSpec : String) : GitOp
  | updateRef : GitOp
  | checkoutBranch : GitOp
  | resetHard : GitOp
  | sparseSet (patterns : List String) : GitOp
deriving DecidableEq

/-- Operations attempted by `GitCliClient.clone_repo` (clone.py 55-67):
`create_repo_path` runs `os.makedirs` when the path does not exist
(lines 112-115), then `git.Repo.clone_from` with `no_checkout=True`,
`depth=1`, `filter='tree:0'` is attempted (its exception, if any, is
caught on lines 66-67). -/
def GitCliClient.clone_repo_ops (pathExists : Bool) : List GitOp :=
  (if pathExists then [] else [GitOp.makedirs])
    ++ [GitOp.cloneFrom true 1 "tree:0"]

/-- Operations attempted by `GitCliClient.update_repo` (clone.py 69-79):
shallow tree-filtered fetch, fast-forward of the default branch ref,
checkout, hard reset.  This method is defined by the source but is never
called by `clone_repository` or anywhere else in the stage. -/
def GitCliClient.update_repo_ops : List GitOp :=
  [GitOp.fetchShallow 1 "tree:0", GitOp.updateRef, GitOp.checkoutBranch,
    GitOp.resetHard]

/-- Operations attempted by `GitCliClient.set_sparse_checkout`
(clone.py 81-95) when called with the non-empty pattern list of
clone.py 156: returns without acting when the repo path does not exist,
otherwise attempts `sparse_checkout set --no-cone` with the patterns. -/
def GitCliClient.set_sparse_checkout_ops (pathExists : Bool)
    (patterns : List String) : List GitOp :=
  if pathExists then [GitOp.sparseSet patterns] else []

/-- The error swallowed by `GitCliClient.clone_repo` (clone.py 66-67): the
exception raised by `git.Repo.clone_from`, if any, is printed and
discarded; the method always returns normally. -/
def GitCliClient.clone_repo_log (cloneExc : Except String Unit) :
    Option String :=
  match cloneExc with
  | Except.error e => some e
  | Except.ok _ => none

/-- The error swallowed by `GitCliClient.set_sparse_checkout`
(clone.py 94-95). -/
def GitCliClient.set_sparse_checkout_log (sparseExc : Except String Unit) :
    Option String :=
  match sparseExc with
  | Except.error e => some e
  | Except.ok _ => none

/-- clone.py `clone_repository` (lines 141-170) as an outcome function.
`cloneExc` and `sparseExc` are the results of the underlying
`git.Repo.clone_from` and `sparse_checkout` invocations.
`extract_repo_info` is called on line 145, before the `try` of line 149,
so an exception it raises propagates (`Except.error`); a `None, None`
parse result returns `False`.  Inside the `try`, `clone_repo` and
`set_sparse_checkout` catch their own exceptions (the swallowed messages
are bound and discarded below exactly as the source discards them), so
the body always reaches `return True`. -/
def clone_repository (cloneExc sparseExc : Except String Unit)
    (url : List Char) : Except String Bool :=
  match extract_repo_info url with
  | Except.error e => Except.error e
  | Except.ok none => Except.ok false
  | Except.ok (some _) =>
    let _log1 := GitCliClient.clone_repo_log cloneExc
    let _log2 := GitCliClient.set_sparse_checkout_log sparseExc
    Except.ok true

/-- clone.py `clone_repository` (lines 141-170) as a git-operation trace,
parameterised by whether the computed repo path already exists.  On a
successful parse it calls `clone_repo` (line 153) and then
`set_sparse_checkout` with `['*.tf', '**/*.tf']` (lines 156-157); the
repo path exists at that point because `create_repo_path` made it.
`update_repo` is never called. -/
def clone_repository_ops (pathExists : Bool) (url : List Char) :
    List GitOp :=
  match extract_repo_info url with
  | Except.error _ => []
  | Except.ok none => []
  | Except.ok (some _) =>
    GitCliClient.clone_repo_ops pathExists
      ++ GitCliClient.set_sparse_checkout_ops true ["*.tf", "**/*.tf"]

/-! ## override.py: copying override files -/

/-- An override source directory as `copy_override_files` observes it:
whether it exists on disk, and for each top-level `.tf` file in it,
whether the `shutil.copy2` of that file succeeds. -/
structure SourceDir where
  present : Bool
  tfFiles : List (String × Bool)
deriving DecidableEq

/-- override.py `find_tf_files` (lines 59-70): a missing directory
contributes no files. -/
def find_tf_files (d : SourceDir) : List (String × Bool) :=
  if d.present then d.tfFiles else []

/-- override.py `copy_override_files` (lines 73-97): for each source
directory in order, copy each of its `.tf` files into the repo root,
recording the filename on success; a failing copy is caught on
lines 94-95, logged and skipped.  The function never raises. -/
def copy_override_files (dirs : List SourceDir) : List String :=
  dirs.flatMap fun d =>
    (find_tf_files d).filterMap fun fc => if fc.2 then some fc.1 else none

/-- override.py `process_repository` (lines 100-124): a missing repo
directory returns `False` (lines 106-108); otherwise
`copy_override_files` is called — it cannot raise, so the `except` of
lines 122-124 is unreachable and the function returns `True` whether or
not any file was copied (lines 115-120). -/
def override_process_repository (repoDirPresent : Bool)
    (dirs : List SourceDir) : Bool :=
  if repoDirPresent = false then false
  else
    let _copied := copy_override_files dirs
    true

/-! ## pull.py: terraform init and state pull -/

/-- Captured result of a completed external command
(`subprocess.run(capture_output=True)`): its standard output and exit
status. -/
structure CmdResult where
  stdout : List Char
  exitCode : Int
deriving DecidableEq

/-- pull.py `run_command` (lines 79-103).  `raw` is the behaviour of the
underlying process: `Except.error` embeds `TimeoutExpired` (re-raised on
lines 100-102), `Except.ok` a completed process.  With `check` set,
`subprocess.run` raises `CalledProcessError` on a non-zero exit status,
re-raised on lines 96-99. -/
def run_command (raw : Except String CmdResult) (check : Bool) :
    Except String CmdResult :=
  match raw with
  | Except.error e => Except.error e
  | Except.ok r =>
    if check && !(r.exitCode == 0) then Except.error "CalledProcessError"
    else Except.ok r

/-- Python `str.strip` whitespace test, over the characters Python strips
by default (space, tab, newline, carriage return, form feed, vertical
tab). -/
def pyIsSpace (c : Char) : Bool :=
  c == ' ' || c == '\t' || c == '\n' || c == '\r'
    || c == '\x0b' || c == '\x0c'

/-- Python `str.strip()`: drop leading and trailing whitespace. -/
def pyStrip (s : List Char) : List Char :=
  ((s.dropWhile pyIsSpace).reverse.dropWhile pyIsSpace).reverse

/-- pull.py `terraform_init` (lines 117-127): run
`terraform init -backend=false` with `check=True`; any exception yields
`False`. -/
def terraform_init (initRaw : Except String CmdResult) : Bool :=
  match run_command initRaw true with
  | Except.error _ => false
  | Except.ok _ => true

/-- pull.py `terraform_state_pull` (lines 130-153): run
`terraform state pull` with `check=False`, write `result.stdout` to
`terraform.tfstate` in the repo root even when the exit status is
non-zero (lines 138-141), and return `True` whether or not the stripped
output is empty (lines 144-149).  Any exception (the timeout re-raised by
`run_command`, or a failing file write, embedded as `writeExc`) is caught
on lines 151-153 and yields `False`.  Returns (content written to
`terraform.tfstate` if the write happened, outcome). -/
def terraform_state_pull (pullRaw : Except String CmdResult)
    (writeExc : Option String) : Option (List Char) × Bool :=
  match run_command pullRaw false with
  | Except.error _ => (none, false)
  | Except.ok r =>
    match writeExc with
    | some _ => (none, false)
    | none =>
      if !(pyStrip r.stdout).isEmpty then (some r.stdout, true)
      else (some r.stdout, true)

/-- pull.py `process_repository` (lines 156-186): a missing directory is
`False`; a directory with no `.tf` files is skipped as `True`
(lines 166-168); otherwise `terraform_init` then `terraform_state_pull`,
returning the conjunction of their outcomes. -/
def pull_process_repository (dirPresent hasTf : Bool)
    (initRaw pullRaw : Except String CmdResult)
    (writeExc : Option String) : Bool :=
  if dirPresent = false then false
  else if hasTf = false then true
  else if terraform_init initRaw = false then false
  else (terraform_state_pull pullRaw writeExc).2

/-! ## repos.py: discovery credential handling -/

/-- The `bitbucket.server` configuration as `discover_repositories` reads
it: the optional `password` field and the configured project names.  The
per-project repository listing itself is abstracted as a function
parameter. -/
structure ServerCfg where
  password : Option String
  projects : List String
deriving DecidableEq

/-- The `bitbucket.cloud` configuration: optional `app_password` and the
configured workspace names. -/
structure CloudCfg where
  appPassword : Option String
  workspaces : List String
deriving DecidableEq

/-- The `bitbucket` configuration section. -/
structure BitbucketCfg where
  server : Option ServerCfg
  cloud : Option CloudCfg

/-- Python truthiness of an optional string: `None` and `''` are falsy. -/
def pyTruthy : Option String → Bool
  | none => false
  | some s => !(s == "")

/-- Python `a or b` over optional strings, as used on repos.py 206 and
228: the left operand when truthy, otherwise the right. -/
def pyOr (a b : Option String) : Option String :=
  if pyTruthy a then a else b

/-- repos.py 222-242: the Bitbucket Cloud half of `discover_repositories`.
`acc` is `all_repos` as accumulated by the server half.  A missing app
password executes `return []` (lines 230-232), discarding `acc`. -/
def processCloudTargets (envCloudPw : Option String)
    (fetchCloud : String → List String) (cloudCfg : Option CloudCfg)
    (acc : List String) : List String :=
  match cloudCfg with
  | none => acc
  | some cc =>
    if pyTruthy (pyOr cc.appPassword envCloudPw) = false then []
    else acc ++ cc.workspaces.flatMap fetchCloud

/-- repos.py `discover_repositories` (lines 192-244).  `envServerPw` and
`envCloudPw` are the `BITBUCKET_SERVER_PASSWORD` and
`BITBUCKET_CLOUD_APP_PASSWORD` environment fallbacks; `fetchServer` and
`fetchCloud` are the per-target listing results of the two API clients.
A missing server password executes `return []` (lines 208-210), ending
the whole function before any target is queried. -/
def discover_repositories (envServerPw envCloudPw : Option String)
    (fetchServer fetchCloud : String → List String)
    (cfg : BitbucketCfg) : List String :=
  match cfg.server with
  | none => processCloudTargets envCloudPw fetchCloud cfg.cloud []
  | some sc =>
    if pyTruthy (pyOr sc.password envServerPw) = false then []
    else
      processCloudTargets envCloudPw fetchCloud cfg.cloud
        (sc.projects.flatMap fetchServer)

/-! ## Filesystem paths shared by the stages

Paths are embedded as lists of path segments; `os.path.join(base, x)` is
`base ++ [x]`. -/

/-- `GitCliClient.__init__` (clone.py 49-53): the clone location is the
`repos` subdirectory of the directory holding the scripts. -/
def clone_location (scriptDir : List String) : List String :=
  scriptDir ++ ["repos"]

/-- `GitCliClient.get_repo_path` (clone.py 109-110): the working copy for
`(project, repo)` lives at `<clone_location>/<project>/<repo>`. -/
def get_repo_path (cloneLocation : List String) (project repo : String) :
    List String :=
  cloneLocation ++ [project, repo]

/-- Python `name.startswith('.')`: the first character is a dot. -/
def startsWithDot (s : String) : Bool :=
  match s.toList with
  | [] => false
  | c :: _ => c == '.'

/-- The repository enumeration of override.py 153-157 and pull.py 216-220:
the immediate subdirectories of the base directory whose final segment
does not start with a dot (`os.listdir` + `os.path.isdir` +
`not d.startswith('.')`).  `dirs` is the set of directories present on
disk. -/
def listImmediateSubdirs (dirs : List (List String))
    (base : List String) : List (List String) :=
  dirs.filter fun d =>
    base.isPrefixOf d && d.length == base.length + 1
      && !(startsWithDot (d.getLastD ""))

/-! ## main.py: the orchestrator -/

/-- main.py 75-88: the stage scripts run, in order. -/
def pipeline_stages (discover : Bool) : List String :=
  (if discover then ["repos.py"] else [])
    ++ ["clone.py", "override.py", "pull.py"]

/-- main.py 92: the configuration path passed to a stage — the original
path for `repos.py`, the fixed relative name `repos.yaml` for the other
stages when discovery was requested. -/
def stage_config (discover : Bool) (configPath : String)
    (stage : String) : String :=
  if stage == "repos.py" then configPath
  else if discover then "repos.yaml" else configPath

/-- repos.py 294-297: discovery persists its artifact at
`<script_dir>/repos.yaml`. -/
def repos_output_path (scriptDir : List String) : List String :=
  scriptDir ++ ["repos.yaml"]

/-- Resolution of a relative single-segment path against the working
directory of the process, as `open(config_path)` does in each stage's
`load_config`. -/
def resolve_path (cwd : List String) (relName : String) : List String :=
  cwd ++ [relName]

/-! ## Theorems: the batch engine (claims C1, C2, C3) -/

/-- Closed form of the first pass: the successes are the keys of the items
accepted by `p1` in order, and the failure list and retry queue record the
rejected items in lockstep. -/
theorem firstPass_eq {α β : Type} (p1 : α → Bool) (key : α → β)
    (l : List α) :
    firstPass p1 key l =
      ((l.filter p1).map key, (l.filter fun a => !p1 a).map key,
        l.filter fun a => !p1 a) := by
  induction l with
  | nil => rfl
  | cons a rest ih => cases h : p1 a <;> simp [firstPass, ih, h]

/-- Splitting a count over a filter and its complement. -/
theorem count_map_filter_split {α β : Type} [DecidableEq β]
    (p : α → Bool) (key : α → β) (l : List α) (b : β) :
    List.count b (l.map key) =
      List.count b ((l.filter p).map key)
        + List.count b ((l.filter fun a => !p a).map key) := by
  induction l with
  | nil => simp
  | cons a rest ih =>
    cases h : p a <;> simp [h, List.count_cons, ih] <;> ring

/-- Counting through the retry pass: provided the failure list dominates
the queued keys (which holds on entry, where they are equal), each final
count is the input count plus (for successes) or minus (for failures) the
keys of the items accepted by `p2`. -/
theorem retryPass_count {α β : Type} [DecidableEq β] (p2 : α → Bool)
    (key : α → β) (q : List α) :
    ∀ s f : List β,
      (∀ v, List.count v (q.map key) ≤ List.count v f) →
      ∀ b,
        List.count b (retryPass p2 key q s f).1
            = List.count b s + List.count b ((q.filter p2).map key)
          ∧ List.count b (retryPass p2 key q s f).2
            = List.count b f - List.count b ((q.filter p2).map key) := by
  induction q with
  | nil => intro s f _ b; simp [retryPass]
  | cons a q ih =>
    intro s f hle b
    cases h : p2 a with
    | false =>
      have hle' : ∀ v, List.count v (q.map key) ≤ List.count v f := by
        intro v
        exact le_trans (List.count_le_count_cons v (key a) (q.map key))
          (by simpa using hle v)
      have := ih s f hle' b
      simpa [retryPass, h] using this
    | true =>
      have hmem : 1 ≤ List.count (key a) f := by
        have h1 := hle (key a)
        simp [List.count_cons] at h1
        omega
      have hle' : ∀ v,
          List.count v (q.map key) ≤ List.count v (f.erase (key a)) := by
        intro v
        by_cases hv : v = key a
        · subst hv
          have h1 := hle (key a)
          simp [List.count_cons] at h1
          rw [List.count_erase_self]
          omega
        · rw [List.count_erase_of_ne hv]
          exact le_trans (List.count_le_count_cons v (key a) (q.map key))
            (by simpa using hle v)
      have := ih (s ++ [key a]) (f.erase (key a)) hle' b
      obtain ⟨ih1, ih2⟩ := this
      constructor
      · simp only [retryPass, h, if_true]
        rw [ih1, List.filter_cons_of_pos h, List.map_cons]
        by_cases hv : key a = b
        · subst hv
          simp [List.count_append, List.count_singleton, List.count_cons]
          omega
        · simp [List.count_append, List.count_singleton, List.count_cons,
            hv]
      · simp only [retryPass, h, if_true]
        rw [ih2, List.filter_cons_of_pos h, List.map_cons]
        by_cases hv : key a = b
        · subst hv
          rw [List.count_erase_self]
          simp [List.count_cons]
          omega
        · rw [List.count_erase_of_ne (by exact fun hc => hv hc.symm)]
          simp [List.count_cons, hv]

/-- Counting through a whole stage run: the final success list holds the
keys of the items accepted on the first pass or on the retry, and the
final failure list the keys of the items rejected twice. -/
theorem stageRun_count {α β : Type} [DecidableEq β] (p1 p2 : α → Bool)
    (key : α → β) (l : List α) (b : β) :
    List.count b (stageRun p1 p2 key l).1
        = List.count b ((l.filter p1).map key)
          + List.count b
              (((l.filter fun a => !p1 a).filter p2).map key)
      ∧ List.count b (stageRun p1 p2 key l).2
        = List.count b
            (((l.filter fun a => !p1 a).filter fun a => !p2 a).map key) := by
  have hrun : stageRun p1 p2 key l =
      retryPass p2 key (l.filter fun a => !p1 a)
        ((l.filter p1).map key)
        ((l.filter fun a => !p1 a).map key) := by
    simp [stageRun, firstPass_eq]
  obtain ⟨h1, h2⟩ := retryPass_count p2 key (l.filter fun a => !p1 a)
    ((l.filter p1).map key) ((l.filter fun a => !p1 a).map key)
    (fun v => le_refl _) b
  refine ⟨by rw [hrun, h1], ?_⟩
  rw [hrun, h2,
    count_map_filter_split p2 key (l.filter fun a => !p1 a) b]
  omega

/-- C1: at the end of a stage run in which every processed item yields a
boolean outcome, the final success list and final failure list together
are a permutation of the keys of the enumerated items (each occurrence
lands in exactly one of the two lists, duplicates included), and their
lengths sum to the original item count.  Instantiating `key` with the
identity gives the clone stage (clone.py 199-223); instantiating it with
`os.path.basename` gives the override and pull stages (override.py
166-191, pull.py 229-254). -/
theorem stageRun_partition {α β : Type} [DecidableEq β]
    (p1 p2 : α → Bool) (key : α → β) (l : List α) :
    ((stageRun p1 p2 key l).1 ++ (stageRun p1 p2 key l).2).Perm
        (l.map key)
      ∧ (stageRun p1 p2 key l).1.length + (stageRun p1 p2 key l).2.length
        = l.length := by
  have hperm :
      ((stageRun p1 p2 key l).1 ++ (stageRun p1 p2 key l).2).Perm
        (l.map key) := by
    rw [List.perm_iff_count]
    intro b
    rw [List.count_append]
    obtain ⟨h1, h2⟩ := stageRun_count p1 p2 key l b
    rw [h1, h2,
      count_map_filter_split p1 key l b,
      count_map_filter_split p2 key (l.filter fun a => !p1 a) b]
    ring
  refine ⟨hperm, ?_⟩
  have hlen := hperm.length_eq
  simpa [List.length_append, List.length_map] using hlen

/-- C2: for an item that fails on the first pass, the retry decides its
final place.  If the retry succeeds, the item's key ends in the final
success list and does not occur in the final failure list (stated as a
zero count); if the retry also fails, the key remains in the final
failure list.  The injectivity hypothesis of the first half reflects the
enumeration of the stages: clone.py keys items by themselves, and
override.py/pull.py key items by their basename, which is injective over
the distinct entries `os.listdir` returns. -/
theorem stageRun_retry_outcomes {α β : Type} [DecidableEq β]
    (p1 p2 : α → Bool) (key : α → β) (l : List α) (a : α)
    (hmem : a ∈ l) (h1 : p1 a = false) :
    (p2 a = true → (∀ b ∈ l, key b = key a → b = a) →
        key a ∈ (stageRun p1 p2 key l).1
          ∧ List.count (key a) (stageRun p1 p2 key l).2 = 0)
      ∧ (p2 a = false → key a ∈ (stageRun p1 p2 key l).2) := by
  obtain ⟨hs, hf⟩ := stageRun_count p1 p2 key l (key a)
  constructor
  · intro h2 hinj
    constructor
    · have hmem2 : key a ∈
          (((l.filter fun a => !p1 a).filter p2).map key) := by
        refine List.mem_map.mpr ⟨a, ?_, rfl⟩
        refine List.mem_filter.mpr ⟨List.mem_filter.mpr ⟨hmem, ?_⟩, h2⟩
        simp [h1]
      have hpos : 0 < List.count (key a) (stageRun p1 p2 key l).1 := by
        rw [hs]
        have := List.count_pos_iff.mpr hmem2
        omega
      exact List.count_pos_iff.mp hpos
    · rw [hf]
      rw [List.count_eq_zero]
      intro hcon
      obtain ⟨b, hb, hbk⟩ := List.mem_map.mp hcon
      obtain ⟨hb1, hb2⟩ := List.mem_filter.mp hb
      obtain ⟨hb3, _⟩ := List.mem_filter.mp hb1
      have hba : b = a := hinj b hb3 hbk
      subst hba
      simp [h2] at hb2
  · intro h2
    have hmem2 : key a ∈
        (((l.filter fun a => !p1 a).filter fun a => !p2 a).map key) := by
      refine List.mem_map.mpr ⟨a, ?_, rfl⟩
      refine List.mem_filter.mpr ⟨List.mem_filter.mpr ⟨hmem, ?_⟩, ?_⟩
      · simp [h1]
      · simp [h2]
    have hpos : 0 < List.count (key a) (stageRun p1 p2 key l).2 := by
      rw [hf]
      have := List.count_pos_iff.mpr hmem2
      omega
    exact List.count_pos_iff.mp hpos

/-- Witness for C2 at a concrete input: of two items that both fail the
first pass, the one whose retry succeeds ends in the success list only,
and the one whose retry fails remains in the failure list. -/
theorem stageRun_retry_outcomes_witness :
    ((5 : Nat) ∈ [5, 6] ∧ (6 : Nat) ∈ [5, 6]
        ∧ (fun _ : Nat => false) 5 = false
        ∧ (fun n : Nat => n == 5) 5 = true
        ∧ (fun _ : Nat => false) 6 = false
        ∧ (fun n : Nat => n == 5) 6 = false)
      ∧ (5 : Nat) ∈
          (stageRun (fun _ => false) (fun n => n == 5) (id : Nat → Nat)
            [5, 6]).1
      ∧ List.count 5
          (stageRun (fun _ => false) (fun n => n == 5) (id : Nat → Nat)
            [5, 6]).2 = 0
      ∧ (6 : Nat) ∈
          (stageRun (fun _ => false) (fun n => n == 5) (id : Nat → Nat)
            [5, 6]).2 :=
  ⟨⟨by decide, by decide, rfl, rfl, rfl, rfl⟩,
    ((stageRun_retry_outcomes (fun _ => false) (fun n => n == 5) id
        [5, 6] 5 (by decide) rfl).1 rfl (fun b _ hk => hk)).1,
    ((stageRun_retry_outcomes (fun _ => false) (fun n => n == 5) id
        [5, 6] 5 (by decide) rfl).1 rfl (fun b _ hk => hk)).2,
    (stageRun_retry_outcomes (fun _ => false) (fun n => n == 5) id
        [5, 6] 6 (by decide) rfl).2 rfl⟩

/-- C3: each of the three batch stages exits with status zero exactly when
its final failure list is empty, and a run that enumerates zero work
items (clone.py with an empty repository list; override.py and pull.py
taking their early no-op return) exits with status zero. -/
theorem stage_exit_iff_failures {α β : Type} [DecidableEq α]
    [DecidableEq β] (p1 p2 : α → Bool) (key : α → β) (urls : List α)
    (dirs : List α) :
    ((cloneMain p1 p2 urls).exitCode = 0
        ↔ (cloneMain p1 p2 urls).failure = [])
      ∧ ((overrideMain p1 p2 key dirs).exitCode = 0
        ↔ (overrideMain p1 p2 key dirs).failure = [])
      ∧ ((pullMain true p1 p2 key dirs).exitCode = 0
        ↔ (pullMain true p1 p2 key dirs).failure = [])
      ∧ cloneMain p1 p2 ([] : List α) = ⟨[], [], 0⟩
      ∧ overrideMain p1 p2 key ([] : List α) = ⟨[], [], 0⟩
      ∧ pullMain true p1 p2 key ([] : List α) = ⟨[], [], 0⟩ := by
  refine ⟨?_, ?_, ?_, ?_, ?_, ?_⟩
  · unfold cloneMain
    cases h : (stageRun p1 p2 id urls).2 <;> simp [h, List.isEmpty]
  · unfold overrideMain
    cases dirs with
    | nil => simp
    | cons d ds =>
      cases h : (stageRun p1 p2 key (d :: ds)).2 <;>
        simp [h, List.isEmpty]
  · unfold pullMain
    cases dirs with
    | nil => simp
    | cons d ds =>
      cases h : (stageRun p1 p2 key (d :: ds)).2 <;>
        simp [h, List.isEmpty]
  · simp [cloneMain, stageRun, firstPass, retryPass, List.isEmpty]
  · rfl
  · rfl

/-! ## Theorems: the clone-URL parser (claim C6) -/

/-- Splitting never yields an empty list of parts. -/
theorem pySplit_ne_nil (c : Char) (l : List Char) : pySplit c l ≠ [] := by
  cases l with
  | nil => simp [pySplit]
  | cons x xs => by_cases h : x = c <;> simp [pySplit, h]

/-- Splitting a separator-free string yields the string itself. -/
theorem pySplit_no_sep (c : Char) (l : List Char) (h : c ∉ l) :
    pySplit c l = [l] := by
  induction l with
  | nil => rfl
  | cons x xs ih =>
    have hx : ¬ x = c := by
      intro hc; exact h (by simp [hc])
    have hxs : c ∉ xs := fun hc => h (List.mem_cons_of_mem _ hc)
    simp [pySplit, hx, ih hxs]

/-- Splitting at the first separator occurrence. -/
theorem pySplit_sep_split (c : Char) (l t : List Char) (h : c ∉ l) :
    pySplit c (l ++ c :: t) = l :: pySplit c t := by
  induction l with
  | nil => simp [pySplit]
  | cons x xs ih =>
    have hx : ¬ x = c := by
      intro hc; exact h (by simp [hc])
    have hxs : c ∉ xs := fun hc => h (List.mem_cons_of_mem _ hc)
    simp [pySplit, hx, ih hxs]

/-- A list is a Boolean prefix of itself followed by anything. -/
theorem isPrefixOf_append_self {α : Type} [BEq α] [LawfulBEq α]
    (l t : List α) : l.isPrefixOf (l ++ t) = true := by
  induction l with
  | nil => simp [List.isPrefixOf]
  | cons x xs ih => simp [List.isPrefixOf, ih]

/-- A list is a Boolean suffix of anything followed by itself. -/
theorem isSuffixOf_append_self {α : Type} [BEq α] [LawfulBEq α]
    (l t : List α) : l.isSuffixOf (t ++ l) = true := by
  simp [List.isSuffixOf, List.reverse_append, isPrefixOf_append_self]

/-- C6 counterexample: the claim maps every URL of the form
`user@host:org/repo` to `(org, repo)`, but the parser only accepts the
literal user `git` (clone.py 121): `alice@host:org/repo` is a parse
failure (`None, None`, embedded as `Except.ok none`), and the item is
marked failed (`clone_repository` returns `False`), not mapped to
`("org", "repo")`. -/
theorem extract_repo_info_cex :
    extract_repo_info "alice@host:org/repo".toList = Except.ok none
      ∧ clone_repository (Except.ok ()) (Except.ok ())
          "alice@host:org/repo".toList = Except.ok false := by
  refine ⟨?_, ?_⟩ <;> rfl

/-- C6 amended: the parser maps `git@<host>:<org>/<repo>` and
`git@<host>:<org>/<repo>.git` (user literally `git`; host, org and repo
free of separator characters) to `(org, repo)`; a `git@` URL whose colon
part splits into more than two `/`-segments parses to the first two
segments, a trailing `.git` being stripped from the final segment first;
every URL not starting with `git@` — in particular
`https://host/org/repo.git` and URLs with another user name — is an
item-level parse failure; a `git@` URL whose colon part has no `/`
separator is an item-level parse failure; and a `git@` URL containing no
colon raises an uncaught `IndexError` (clone.py 123). -/
theorem extract_repo_info_amended :
    (∀ h o r : List Char, ':' ∉ h → ':' ∉ o → ':' ∉ r → '/' ∉ o →
        '/' ∉ r → dotGit.isSuffixOf (o ++ '/' :: r) = false →
        extract_repo_info ((gitAt ++ h) ++ ':' :: (o ++ '/' :: r))
          = Except.ok (some (o, r)))
      ∧ (∀ h o r : List Char, ':' ∉ h → ':' ∉ o → ':' ∉ r → '/' ∉ o →
        '/' ∉ r →
        extract_repo_info
            ((gitAt ++ h) ++ ':' :: (o ++ '/' :: (r ++ dotGit)))
          = Except.ok (some (o, r)))
      ∧ (∀ h o r rest : List Char, ':' ∉ h → ':' ∉ o → ':' ∉ r →
        ':' ∉ rest → '/' ∉ o → '/' ∉ r →
        dotGit.isSuffixOf (o ++ '/' :: (r ++ '/' :: rest)) = false →
        extract_repo_info
            ((gitAt ++ h) ++ ':' :: (o ++ '/' :: (r ++ '/' :: rest)))
          = Except.ok (some (o, r)))
      ∧ (∀ h o r rest : List Char, ':' ∉ h → ':' ∉ o → ':' ∉ r →
        ':' ∉ rest → '/' ∉ o → '/' ∉ r →
        extract_repo_info
            ((gitAt ++ h)
              ++ ':' :: (o ++ '/' :: (r ++ '/' :: (rest ++ dotGit))))
          = Except.ok (some (o, r)))
      ∧ (∀ url : List Char, gitAt.isPrefixOf url = false →
        extract_repo_info url = Except.ok none)
      ∧ (∀ h p : List Char, ':' ∉ h → ':' ∉ p → '/' ∉ p →
        extract_repo_info ((gitAt ++ h) ++ ':' :: p) = Except.ok none)
      ∧ (∀ t : List Char, ':' ∉ t →
        extract_repo_info (gitAt ++ t) = Except.error "IndexError")
      ∧ extract_repo_info "git@host:a/b/c".toList
        = Except.ok (some ("a".toList, "b".toList))
      ∧ extract_repo_info "https://host/org/repo.git".toList
        = Except.ok none := by
  have hgitAt : ':' ∉ gitAt := by decide
  refine ⟨?_, ?_, ?_, ?_, ?_, ?_, ?_, ?_, ?_⟩
  · intro h o r hch hco hcr hso hsr hsuf
    have hpre : gitAt.isPrefixOf
        ((gitAt ++ h) ++ ':' :: (o ++ '/' :: r)) = true := by
      rw [List.append_assoc]
      exact isPrefixOf_append_self _ _
    have hc1 : ':' ∉ gitAt ++ h := by
      intro hm
      rcases List.mem_append.mp hm with hm | hm
      · exact hgitAt hm
      · exact hch hm
    have hc2 : ':' ∉ o ++ '/' :: r := by
      intro hm
      rcases List.mem_append.mp hm with hm | hm
      · exact hco hm
      · rcases List.mem_cons.mp hm with hm | hm
        · exact absurd hm (by decide)
        · exact hcr hm
    have hs2 : '/' ∉ r := hsr
    unfold extract_repo_info
    rw [if_pos hpre, pySplit_sep_split ':' (gitAt ++ h) _ hc1,
      pySplit_no_sep ':' _ hc2]
    simp only [hsuf, Bool.false_eq_true, if_false,
      pySplit_sep_split '/' o r hso, pySplit_no_sep '/' r hs2]
  · intro h o r hch hco hcr hso hsr
    have hpre : gitAt.isPrefixOf
        ((gitAt ++ h) ++ ':' :: (o ++ '/' :: (r ++ dotGit))) = true := by
      rw [List.append_assoc]
      exact isPrefixOf_append_self _ _
    have hc1 : ':' ∉ gitAt ++ h := by
      intro hm
      rcases List.mem_append.mp hm with hm | hm
      · exact hgitAt hm
      · exact hch hm
    have hc2 : ':' ∉ o ++ '/' :: (r ++ dotGit) := by
      intro hm
      rcases List.mem_append.mp hm with hm | hm
      · exact hco hm
      · rcases List.mem_cons.mp hm with hm | hm
        · exact absurd hm (by decide)
        · rcases List.mem_append.mp hm with hm | hm
          · exact hcr hm
          · exact absurd hm (by decide)
    have hshape : o ++ '/' :: (r ++ dotGit) = (o ++ '/' :: r) ++ dotGit := by
      simp
    have hsuf : dotGit.isSuffixOf (o ++ '/' :: (r ++ dotGit)) = true := by
      rw [hshape]
      exact isSuffixOf_append_self _ _
    have htake : (o ++ '/' :: (r ++ dotGit)).take
        ((o ++ '/' :: (r ++ dotGit)).length - 4) = o ++ '/' :: r := by
      rw [hshape]
      refine List.take_left' ?_
      simp [dotGit]
      omega
    unfold extract_repo_info
    rw [if_pos hpre, pySplit_sep_split ':' (gitAt ++ h) _ hc1,
      pySplit_no_sep ':' _ hc2]
    simp only [hsuf, if_true, htake,
      pySplit_sep_split '/' o r hso, pySplit_no_sep '/' r hsr]
  · intro h o r rest hch hco hcr hcrest hso hsr hsuf
    have hpre : gitAt.isPrefixOf
        ((gitAt ++ h) ++ ':' :: (o ++ '/' :: (r ++ '/' :: rest)))
          = true := by
      rw [List.append_assoc]
      exact isPrefixOf_append_self _ _
    have hc1 : ':' ∉ gitAt ++ h := by
      intro hm
      rcases List.mem_append.mp hm with hm | hm
      · exact hgitAt hm
      · exact hch hm
    have hc2 : ':' ∉ o ++ '/' :: (r ++ '/' :: rest) := by
      intro hm
      rcases List.mem_append.mp hm with hm | hm
      · exact hco hm
      · rcases List.mem_cons.mp hm with hm | hm
        · exact absurd hm (by decide)
        · rcases List.mem_append.mp hm with hm | hm
          · exact hcr hm
          · rcases List.mem_cons.mp hm with hm | hm
            · exact absurd hm (by decide)
            · exact hcrest hm
    unfold extract_repo_info
    rw [if_pos hpre, pySplit_sep_split ':' (gitAt ++ h) _ hc1,
      pySplit_no_sep ':' _ hc2]
    simp only [hsuf, Bool.false_eq_true, if_false,
      pySplit_sep_split '/' o _ hso, pySplit_sep_split '/' r rest hsr]
  · intro h o r rest hch hco hcr hcrest hso hsr
    have hpre : gitAt.isPrefixOf
        ((gitAt ++ h)
          ++ ':' :: (o ++ '/' :: (r ++ '/' :: (rest ++ dotGit))))
          = true := by
      rw [List.append_assoc]
      exact isPrefixOf_append_self _ _
    have hc1 : ':' ∉ gitAt ++ h := by
      intro hm
      rcases List.mem_append.mp hm with hm | hm
      · exact hgitAt hm
      · exact hch hm
    have hc2 : ':' ∉ o ++ '/' :: (r ++ '/' :: (rest ++ dotGit)) := by
      intro hm
      rcases List.mem_append.mp hm with hm | hm
      · exact hco hm
      · rcases List.mem_cons.mp hm with hm | hm
        · exact absurd hm (by decide)
        · rcases List.mem_append.mp hm with hm | hm
          · exact hcr hm
          · rcases List.mem_cons.mp hm with hm | hm
            · exact absurd hm (by decide)
            · rcases List.mem_append.mp hm with hm | hm
              · exact hcrest hm
              · exact absurd hm (by decide)
    have hshape : o ++ '/' :: (r ++ '/' :: (rest ++ dotGit))
        = (o ++ '/' :: (r ++ '/' :: rest)) ++ dotGit := by
      simp
    have hsuf : dotGit.isSuffixOf
        (o ++ '/' :: (r ++ '/' :: (rest ++ dotGit))) = true := by
      rw [hshape]
      exact isSuffixOf_append_self _ _
    have htake : (o ++ '/' :: (r ++ '/' :: (rest ++ dotGit))).take
        ((o ++ '/' :: (r ++ '/' :: (rest ++ dotGit))).length - 4)
          = o ++ '/' :: (r ++ '/' :: rest) := by
      rw [hshape]
      refine List.take_left' ?_
      simp [dotGit]
      omega
    unfold extract_repo_info
    rw [if_pos hpre, pySplit_sep_split ':' (gitAt ++ h) _ hc1,
      pySplit_no_sep ':' _ hc2]
    simp only [hsuf, if_true, htake,
      pySplit_sep_split '/' o _ hso, pySplit_sep_split '/' r rest hsr]
  · intro url hnp
    unfold extract_repo_info
    rw [if_neg (by simp [hnp])]
  · intro h p hch hcp hsp
    have hpre : gitAt.isPrefixOf ((gitAt ++ h) ++ ':' :: p) = true := by
      rw [List.append_assoc]
      exact isPrefixOf_append_self _ _
    have hc1 : ':' ∉ gitAt ++ h := by
      intro hm
      rcases List.mem_append.mp hm with hm | hm
      · exact hgitAt hm
      · exact hch hm
    unfold extract_repo_info
    rw [if_pos hpre, pySplit_sep_split ':' (gitAt ++ h) _ hc1,
      pySplit_no_sep ':' _ hcp]
    cases hsufb : dotGit.isSuffixOf p with
    | false =>
      simp only [hsufb, Bool.false_eq_true, if_false,
        pySplit_no_sep '/' p hsp]
    | true =>
      have hsp2 : '/' ∉ p.take (p.length - 4) :=
        fun hm => hsp (List.take_subset _ _ hm)
      simp only [hsufb, if_true, pySplit_no_sep '/' _ hsp2]
  · intro t hct
    have hpre : gitAt.isPrefixOf (gitAt ++ t) = true :=
      isPrefixOf_append_self _ _
    have hc1 : ':' ∉ gitAt ++ t := by
      intro hm
      rcases List.mem_append.mp hm with hm | hm
      · exact hgitAt hm
      · exact hct hm
    unfold extract_repo_info
    rw [if_pos hpre, pySplit_no_sep ':' _ hc1]
  · rfl
  · rfl

/-- Witness for the amended C6 at concrete inputs: the plain and `.git`
forms of a well-formed `git@` URL both parse to `(org, repo)`, a colon
part with extra `/`-segments parses to its first two segments, and a
colon part without `/` is a parse failure. -/
theorem extract_repo_info_amended_witness :
    (':' ∉ "host".toList ∧ ':' ∉ "org".toList ∧ ':' ∉ "repo".toList
        ∧ '/' ∉ "org".toList ∧ '/' ∉ "repo".toList
        ∧ dotGit.isSuffixOf ("org".toList ++ '/' :: "repo".toList) = false
        ∧ ':' ∉ "a".toList ∧ ':' ∉ "b".toList ∧ ':' ∉ "c/d".toList
        ∧ '/' ∉ "a".toList ∧ '/' ∉ "b".toList
        ∧ dotGit.isSuffixOf
            ("a".toList ++ '/' :: ("b".toList ++ '/' :: "c/d".toList))
          = false
        ∧ ':' ∉ "repo.git".toList ∧ '/' ∉ "repo.git".toList)
      ∧ extract_repo_info
          ((gitAt ++ "host".toList)
            ++ ':' :: ("org".toList ++ '/' :: "repo".toList))
        = Except.ok (some ("org".toList, "repo".toList))
      ∧ extract_repo_info
          ((gitAt ++ "host".toList)
            ++ ':' :: ("org".toList ++ '/' :: ("repo".toList ++ dotGit)))
        = Except.ok (some ("org".toList, "repo".toList))
      ∧ extract_repo_info
          ((gitAt ++ "host".toList)
            ++ ':' :: ("a".toList ++ '/' :: ("b".toList ++ '/' ::
              "c/d".toList)))
        = Except.ok (some ("a".toList, "b".toList))
      ∧ extract_repo_info
          ((gitAt ++ "host".toList) ++ ':' :: "repo.git".toList)
        = Except.ok none :=
  ⟨⟨by decide, by decide, by decide, by decide, by decide, by decide,
      by decide, by decide, by decide, by decide, by decide, by decide,
      by decide, by decide⟩,
    extract_repo_info_amended.1 "host".toList "org".toList "repo".toList
      (by decide) (by decide) (by decide) (by decide) (by decide)
      (by decide),
    extract_repo_info_amended.2.1 "host".toList "org".toList
      "repo".toList (by decide) (by decide) (by decide) (by decide)
      (by decide),
    extract_repo_info_amended.2.2.1 "host".toList "a".toList "b".toList
      "c/d".toList (by decide) (by decide) (by decide) (by decide)
      (by decide) (by decide) (by decide),
    extract_repo_info_amended.2.2.2.2.2.1 "host".toList
      "repo.git".toList (by decide) (by decide) (by decide)⟩

/-! ## Theorems: per-item exception handling (claim C4) -/

/-- C4: the claimed propagation policy fails in both directions.  A
`git@` URL without a colon raises `IndexError` in `extract_repo_info`,
which clone.py 145 calls before the `try` of line 149, so the exception
escapes the per-item boundary instead of becoming a `False` outcome.
Conversely, exceptions raised by the clone and sparse-checkout git
operations are caught inside `GitCliClient` (clone.py 66-67, 94-95) and
merely printed, so the item's outcome is `True` (success), not the
`False` the claim requires; likewise a failing override-file copy is
caught inside `copy_override_files` (override.py 94-95) — the file is
simply not recorded as copied — and `process_repository` still returns
`True`. -/
theorem clone_item_error_handling :
    clone_repository (Except.ok ()) (Except.ok ()) "git@host".toList
        = Except.error "IndexError"
      ∧ clone_repository (Except.error "clone failed")
          (Except.error "sparse failed") "git@host:org/repo.git".toList
        = Except.ok true
      ∧ copy_override_files [⟨true, [("override.tf", false)]⟩] = []
      ∧ override_process_repository true
          [⟨true, [("override.tf", false)]⟩] = true := by
  refine ⟨rfl, rfl, rfl, rfl⟩

/-! ## Theorems: existing working copies are re-cloned, never updated
(claim C5) -/

/-- C5: processing a clone-stage item whose working copy already exists
performs the fresh-clone path, not the update path.  At such an item the
attempted operations are exactly the shallow, tree-filtered,
no-checkout `clone_from` followed by the sparse-checkout configuration;
no trace of any item, existing or not, ever contains an operation of the
fetch / fast-forward / checkout / hard-reset update path, whose
implementation `GitCliClient.update_repo` is never invoked by
`clone_repository`. -/
theorem clone_stage_never_updates :
    clone_repository_ops true "git@host:org/repo.git".toList
        = [GitOp.cloneFrom true 1 "tree:0",
            GitOp.sparseSet ["*.tf", "**/*.tf"]]
      ∧ (∀ (pathExists : Bool) (url : List Char),
          List.count (GitOp.fetchShallow 1 "tree:0")
              (clone_repository_ops pathExists url) = 0
            ∧ List.count GitOp.updateRef
              (clone_repository_ops pathExists url) = 0
            ∧ List.count GitOp.checkoutBranch
              (clone_repository_ops pathExists url) = 0
            ∧ List.count GitOp.resetHard
              (clone_repository_ops pathExists url) = 0)
      ∧ GitCliClient.update_repo_ops
        = [GitOp.fetchShallow 1 "tree:0", GitOp.updateRef,
            GitOp.checkoutBranch, GitOp.resetHard] := by
  refine ⟨rfl, ?_, rfl⟩
  intro pathExists url
  cases hx : extract_repo_info url with
  | error e =>
    simp [clone_repository_ops, hx]
  | ok v =>
    cases v with
    | none => simp [clone_repository_ops, hx]
    | some pr =>
      cases pathExists <;>
        simp [clone_repository_ops, hx, GitCliClient.clone_repo_ops,
          GitCliClient.set_sparse_checkout_ops, List.count_cons]

/-! ## Theorems: discovery credential handling (claim C7) -/

/-- C7 counterexample: with a server target that has credentials and
yields `sshA`, and a cloud target missing its app password, the claim
says discovery still returns the server URLs; the code's `return []`
(repos.py 230-232) discards everything and returns the empty list. -/
theorem discovery_missing_credential_cex :
    discover_repositories none none (fun _ => ["sshA"])
        (fun _ => ["sshB"])
        ⟨some ⟨some "pw", ["PROJ"]⟩, some ⟨none, ["WS"]⟩⟩ = []
      ∧ List.elem "sshA"
          (discover_repositories none none (fun _ => ["sshA"])
            (fun _ => ["sshB"])
            ⟨some ⟨some "pw", ["PROJ"]⟩, some ⟨none, ["WS"]⟩⟩)
        = false := by
  refine ⟨rfl, rfl⟩

/-- C7 amended: the absence of required credentials for a configured
target (after the environment fallback) aborts the whole discovery with
an empty result: no further target is executed and URLs already
accumulated from earlier targets are discarded. -/
theorem discovery_missing_credential_aborts
    (envS envC : Option String) (fS fC : String → List String)
    (cfg : BitbucketCfg) (sc : ServerCfg) (cc : CloudCfg) :
    (cfg.server = some sc → pyTruthy (pyOr sc.password envS) = false →
        discover_repositories envS envC fS fC cfg = [])
      ∧ (cfg.cloud = some cc → pyTruthy (pyOr cc.appPassword envC) = false →
        discover_repositories envS envC fS fC cfg = []) := by
  constructor
  · intro hs hpw
    simp [discover_repositories, hs, hpw]
  · intro hc hpw
    unfold discover_repositories
    cases hsrv : cfg.server with
    | none => simp [processCloudTargets, hc, hpw]
    | some sc2 =>
      by_cases hp2 : pyTruthy (pyOr sc2.password envS) = false
      · simp [hp2]
      · simp [hp2, processCloudTargets, hc, hpw]

/-- Witness for the amended C7: a configured cloud target with no app
password and no environment fallback empties the whole result. -/
theorem discovery_missing_credential_aborts_witness :
    ((⟨some ⟨some "pw", ["PROJ"]⟩, some ⟨none, ["WS"]⟩⟩ :
          BitbucketCfg).cloud
        = some ⟨none, ["WS"]⟩
      ∧ pyTruthy (pyOr (⟨none, ["WS"]⟩ : CloudCfg).appPassword none)
        = false)
      ∧ discover_repositories none none (fun _ => ["sshA"])
          (fun _ => ["sshB"])
          ⟨some ⟨some "pw", ["PROJ"]⟩, some ⟨none, ["WS"]⟩⟩ = [] :=
  ⟨⟨rfl, rfl⟩,
    (discovery_missing_credential_aborts none none (fun _ => ["sshA"])
        (fun _ => ["sshB"])
        ⟨some ⟨some "pw", ["PROJ"]⟩, some ⟨none, ["WS"]⟩⟩
        ⟨some "pw", ["PROJ"]⟩ ⟨none, ["WS"]⟩).2 rfl rfl⟩

/-! ## Theorems: the pull stage writes the exported state (claim C8) -/

/-- C8: when the state-export command completes without raising (timeout
or write failure), `terraform.tfstate` receives exactly the command's
standard output — for every exit status, `check=False` suppressing
`CalledProcessError` — and the item's outcome is success, also when the
output is empty; with the initialization step completing with status 0,
the whole per-item processing returns success. -/
theorem state_pull_writes_output (r : CmdResult) (initOut : List Char) :
    terraform_state_pull (Except.ok r) none = (some r.stdout, true)
      ∧ pull_process_repository true true (Except.ok ⟨initOut, 0⟩)
          (Except.ok r) none = true := by
  have h1 : terraform_state_pull (Except.ok r) none
      = (some r.stdout, true) := by
    unfold terraform_state_pull run_command
    simp
  refine ⟨h1, ?_⟩
  unfold pull_process_repository terraform_init run_command
  simp [h1]

/-! ## Theorems: the stages disagree about where working copies live
(claim C9) -/

/-- C9: the clone stage writes the working copy for `(org, repo)` at
`<scripts>/repos/org/repo` (two levels below the base), but the
enumeration shared by override.py 153-157 and pull.py 216-220 lists only
the immediate non-hidden subdirectories of `<scripts>/repos` — here the
project directory `<scripts>/repos/org` — so the working-copy directory
itself is never enumerated as a work item. -/
theorem working_copy_not_enumerated :
    get_repo_path (clone_location ["app"]) "org" "repo"
        = ["app", "repos", "org", "repo"]
      ∧ listImmediateSubdirs
          [["app", "repos"], ["app", "repos", "org"],
            ["app", "repos", "org", "repo"]]
          (clone_location ["app"])
        = [["app", "repos", "org"]]
      ∧ List.count (get_repo_path (clone_location ["app"]) "org" "repo")
          (listImmediateSubdirs
            [["app", "repos"], ["app", "repos", "org"],
              ["app", "repos", "org", "repo"]]
            (clone_location ["app"])) = 0 := by
  refine ⟨rfl, by decide, by decide⟩

/-! ## Theorems: orchestrator configuration routing (claim C10) -/

/-- C10 counterexample: with `--discover`, the orchestrator passes the
subsequent stages the fixed relative name `repos.yaml`; run from the
working directory `/home/runner` with the scripts living at
`/app/backend/collect`, that name resolves to
`/home/runner/repos.yaml`, which is not the artifact
`/app/backend/collect/repos.yaml` that discovery persisted
(repos.py 295-297), so the subsequent stages are not invoked with "the
same file discovery persisted". -/
theorem orchestrator_artifact_path_cex :
    stage_config true "config.yaml" "clone.py" = "repos.yaml"
      ∧ repos_output_path ["app", "backend", "collect"]
        = ["app", "backend", "collect", "repos.yaml"]
      ∧ (resolve_path ["home", "runner"]
            (stage_config true "config.yaml" "clone.py")
          == repos_output_path ["app", "backend", "collect"]) = false := by
  refine ⟨by decide, rfl, by decide⟩

/-- C10 amended: with `--discover` the discovery stage receives the
original configuration path and every subsequent stage receives the
fixed relative path `repos.yaml`; that path denotes the artifact
discovery persisted (`<scripts dir>/repos.yaml`) exactly when the
orchestrator's working directory is the scripts directory.  Without
`--discover` every stage receives the original path. -/
theorem orchestrator_config_routing :
    pipeline_stages true
        = ["repos.py", "clone.py", "override.py", "pull.py"]
      ∧ (∀ cfg : String, stage_config true cfg "repos.py" = cfg)
      ∧ (∀ cfg : String, stage_config true cfg "clone.py" = "repos.yaml")
      ∧ (∀ cfg : String,
          stage_config true cfg "override.py" = "repos.yaml")
      ∧ (∀ cfg : String, stage_config true cfg "pull.py" = "repos.yaml")
      ∧ (∀ cfg : String, stage_config false cfg "clone.py" = cfg)
      ∧ ∀ cwd scriptDir : List String,
          resolve_path cwd "repos.yaml" = repos_output_path scriptDir
            ↔ cwd = scriptDir := by
  refine ⟨rfl, ?_, ?_, ?_, ?_, ?_, ?_⟩
  · intro cfg; simp [stage_config]
  · intro cfg; simp [stage_config]
  · intro cfg; simp [stage_config]
  · intro cfg; simp [stage_config]
  · intro cfg; simp [stage_config]
  · intro cwd scriptDir
    unfold resolve_path repos_output_path
    exact List.append_left_inj _

end TfCollect
